import Mathlib

/-!
Verification of the qtguard retrieval/gate/composer core.

Shallow embedding of the Python modules `qtguard_core/retrieval.py`,
`qtguard_core/guardrails.py`, `qtguard_core/rag_pipeline.py` and
`qtguard_core/schema.py`.  Python floats are modelled as exact rationals
(`ℚ`); the only float operations the code performs on scores are
comparisons and one subtraction, which are exact on the decimal inputs
considered here.  `float("inf")` / `float("-inf")` are modelled with
`WithTop ℚ` / `WithBot ℚ`.  Python strings are modelled as `String`
(lists of characters); the regular expressions used by the code are
small and are translated pattern-by-pattern into executable character
scanners.
-/

unseal Rat.add Rat.sub Rat.mul

namespace QTGuard

/-- Embedding of `Evidence` dataclass from `retrieval.py`: a scored, retrieved chunk.
The Python field `section` is a Lean keyword, hence the guillemets. -/
structure Evidence where
  title : String
  «section» : String
  chunk_id : String
  text : String
  score : ℚ
deriving DecidableEq

/-- Embedding of `_is_evidence_weak` from `rag_pipeline.py`.  Returns
`(weak, top_score, margin)`.  On no evidence the code returns
`(True, float("-inf"), 0.0)`; with one item the margin is `float("inf")`
(`⊤` here); with two or more items the margin is `top - second`
(reranker scores are finite reals, so the `second != -inf` guard in the
source is always true in this model). -/
def is_evidence_weak (evidence : List Evidence) (score_threshold : ℚ)
    (margin_threshold : ℚ) : Bool × WithBot ℚ × WithTop ℚ :=
  match evidence with
  | [] => (true, ⊥, ((0 : ℚ) : WithTop ℚ))
  | e :: rest =>
    let top := e.score
    let margin : WithTop ℚ :=
      match rest with
      | [] => ⊤
      | e2 :: _ => ((top - e2.score : ℚ) : WithTop ℚ)
    let weak : Bool :=
      if mkRat 1 2 ≤ top then decide (top < score_threshold)
      else decide (top < score_threshold) || decide (margin < ((margin_threshold : ℚ) : WithTop ℚ))
    (weak, ((top : ℚ) : WithBot ℚ), margin)

/-! ### Character and substring machinery

Executable translations of the small set of regular expressions the
source uses.  All inputs are ASCII; `re.IGNORECASE` is modelled by
lowercasing with `Char.toLower`. -/

/-- Python's `\w` for ASCII text: `[a-zA-Z0-9_]`. -/
def isWordChar (c : Char) : Bool := c.isAlphanum || c = '_'

/-- Python's `\s` for ASCII text. -/
def isSpaceChar (c : Char) : Bool :=
  c = ' ' || c = '\t' || c = '\n' || c = '\x0d' || c = '\x0b' || c = '\x0c'

/-- Lowercase a character list (models `str.lower` / `re.IGNORECASE`). -/
def lowerStr (s : List Char) : List Char := s.map Char.toLower

/-- Match a literal pattern at the head, returning the remainder. -/
def matchLit : List Char → List Char → Option (List Char)
  | [], rest => some rest
  | _ :: _, [] => none
  | p :: ps, c :: cs => if p = c then matchLit ps cs else none

/-- Case-insensitive literal match at the head (pattern given lowercase),
returning the remainder with original case preserved. -/
def matchLitCI : List Char → List Char → Option (List Char)
  | [], rest => some rest
  | _ :: _, [] => none
  | p :: ps, c :: cs => if p = c.toLower then matchLitCI ps cs else none

/-- Greedily drop leading whitespace (`\s*`). -/
def skipSpaces : List Char → List Char
  | [] => []
  | c :: cs => if isSpaceChar c then skipSpaces cs else c :: cs

/-- Embedding of `\b` after the match: next character absent or not a word character. -/
def noWordNext : List Char → Bool
  | [] => true
  | c :: _ => !isWordChar c

/-- Embedding of `\b` before a pattern that starts with a word character: previous
character absent or not a word character. -/
def boundaryBefore : Option Char → Bool
  | none => true
  | some c => !isWordChar c

/-- Does the pattern `needle` occur as a contiguous substring? -/
def isPrefixCh : List Char → List Char → Bool
  | [], _ => true
  | _ :: _, [] => false
  | a :: as, b :: bs => a = b && isPrefixCh as bs

/-- Substring containment (Python's `needle in hay`). -/
def containsSub (needle : List Char) : List Char → Bool
  | [] => isPrefixCh needle []
  | c :: rest => isPrefixCh needle (c :: rest) || containsSub needle rest

/-- Embedding of `re.search` over all start positions: try the position-matcher `p`
(which also sees the previous character, for `\b`) left to right. -/
def searchAt (p : Option Char → List Char → Bool) : Option Char → List Char → Bool
  | prev, [] => p prev []
  | prev, c :: rest => p prev (c :: rest) || searchAt p (some c) rest

/-- Embedding of `re.search` returning the first (leftmost) capture produced by `p`. -/
def searchSomeAt {α : Type} (p : Option Char → List Char → Option α) :
    Option Char → List Char → Option α
  | prev, [] => p prev []
  | prev, c :: rest =>
    match p prev (c :: rest) with
    | some v => some v
    | none => searchSomeAt p (some c) rest

/-! ### guardrails.py -/

/-- Pattern `\bqtc\b|\bqt\s*c\b|\bqt interval\b` (IGNORECASE) at one
position of the lowercased text. -/
def qtcGuardAt (prev : Option Char) (l : List Char) : Bool :=
  boundaryBefore prev &&
    ((match matchLit ("qtc".data) l with
      | some r => noWordNext r
      | none => false)
     || (match matchLit ("qt".data) l with
         | some r =>
           (match matchLit ("c".data) (skipSpaces r) with
            | some r2 => noWordNext r2
            | none => false)
         | none => false)
     || (match matchLit ("qt interval".data) l with
         | some r => noWordNext r
         | none => false))

/-- Pattern `\b<word>\b` at one position of the lowercased text. -/
def wordGuardAt (w : List Char) (prev : Option Char) (l : List Char) : Bool :=
  boundaryBefore prev &&
    (match matchLit w l with
     | some r => noWordNext r
     | none => false)

/-- Pattern `\b<key>\s*[:=]\s*\d` at one position of the lowercased text
(the lab-notation alternative of the potassium/magnesium patterns). -/
def labGuardAt (key : List Char) (prev : Option Char) (l : List Char) : Bool :=
  boundaryBefore prev &&
    (match matchLit key l with
     | some r =>
       (match skipSpaces r with
        | c :: r2 =>
          (c = ':' || c = '=') &&
            (match skipSpaces r2 with
             | d :: _ => d.isDigit
             | [] => false)
        | [] => false)
     | none => false)

/-- Embedding of `_REQUIRED_PATTERNS` membership test for "Potassium (K)":
`\bpotassium\b|\bK\s*[:=]\s*\d`. -/
def kGuardAt (prev : Option Char) (l : List Char) : Bool :=
  wordGuardAt ("potassium".data) prev l || labGuardAt ("k".data) prev l

/-- Embedding of `_REQUIRED_PATTERNS` membership test for "Magnesium (Mg)":
`\bmagnesium\b|\bMg\s*[:=]\s*\d`. -/
def mgGuardAt (prev : Option Char) (l : List Char) : Bool :=
  wordGuardAt ("magnesium".data) prev l || labGuardAt ("mg".data) prev l

/-- Embedding of `find_missing_inputs` from `guardrails.py`: the required labels whose
pattern does not occur in the mini-chart. -/
def find_missing_inputs (mini_chart : String) : List String :=
  let t := lowerStr mini_chart.data
  (if searchAt qtcGuardAt none t then [] else ["QTc"]) ++
  (if searchAt kGuardAt none t then [] else ["Potassium (K)"]) ++
  (if searchAt mgGuardAt none t then [] else ["Magnesium (Mg)"])

/-! ### schema.py -/

/-- Embedding of `AuditView` from `schema.py`. -/
structure AuditView where
  missing_data : List String
  notes : List String
deriving DecidableEq

/-- Embedding of `QTGuardOutput` from `schema.py`. -/
structure QTGuardOutput where
  risk_summary : String
  action_plan : List String
  patient_counseling : String
  audit_view : AuditView
deriving DecidableEq

/-- Embedding of `QTGuardOutput.deferral` from `schema.py`. -/
def QTGuardOutput.deferral (missing : List String) : QTGuardOutput where
  risk_summary := "Insufficient information to assess QT risk reliably."
  action_plan :=
    ["Request missing clinical inputs before providing a risk triage.",
     "Do not make medication changes based solely on this tool output."]
  patient_counseling :=
    "To provide safer guidance, we need a complete set of key measurements. Please ask your care team to confirm the missing items."
  audit_view :=
    { missing_data := missing
      notes :=
        ["Safe deferral triggered: required inputs not found in mini-chart.",
         "This is a decision-support demo, not a medical device."] }

/-- Embedding of `build_safe_output` from `guardrails.py`. -/
def build_safe_output (mini_chart : String) : QTGuardOutput :=
  let missing := find_missing_inputs mini_chart
  if missing.isEmpty then
    { risk_summary :=
        "Inputs appear present. Model inference is not wired yet, so this is a placeholder summary."
      action_plan :=
        ["Placeholder: connect MedGemma inference to generate a structured plan.",
         "Placeholder: include monitoring cadence and escalation triggers.",
         "Placeholder: include medication review and electrolyte management prompts."]
      patient_counseling :=
        "Placeholder counseling: this tool is a demo and does not replace clinician judgment."
      audit_view :=
        { missing_data := []
          notes :=
            ["Guardrails check passed for required inputs (QTc, K, Mg).",
             "Returning placeholder output until MedGemma inference is connected."] } }
  else QTGuardOutput.deferral missing

/-! ### rag_pipeline.py — field extraction -/

/-- Decimal value of a digit string (most significant first). -/
def natOfDigits (l : List Char) : ℕ :=
  l.foldl (fun acc c => acc * 10 + (c.toNat - ('0').toNat)) 0

/-- Python `float(g)` for a group matched by `[0-9.]+`: defined exactly
when at most one dot and at least one digit occur, as `float` raises on
other inputs and the caller turns the exception into `None`. -/
def parseFloat (g : List Char) : Option ℚ :=
  let intPart := g.takeWhile Char.isDigit
  let rest := g.drop intPart.length
  let fracPart := match rest with
    | '.' :: f => f
    | _ => []
  if g.countP (fun c => c = '.') ≤ 1 && !(g.filter Char.isDigit).isEmpty then
    some (mkRat (natOfDigits (intPart ++ fracPart)) (10 ^ fracPart.length))
  else none

/-- Python `int(q)` truncation for the non-negative values produced by
`parseFloat`. -/
def pyTrunc (q : ℚ) : ℤ := (q.num.toNat / q.den : ℕ)

/-- Pattern `<key>\s*=\s*([0-9.]+)` (with `\b` before `key` when
`needB`) at one position: returns the captured group. -/
def numPatAt (needB : Bool) (key : List Char) (prev : Option Char)
    (l : List Char) : Option (List Char) :=
  if needB && !boundaryBefore prev then none
  else
    match matchLitCI key l with
    | none => none
    | some r =>
      match skipSpaces r with
      | '=' :: r2 =>
        let g := (skipSpaces r2).takeWhile (fun c => c.isDigit || c = '.')
        if g.isEmpty then none else some g
      | _ => none

/-- Embedding of `_extract_float(pattern, text)` for the patterns used by the source:
an optional `\b`, a literal key, `\s*=\s*`, and a `[0-9.]+` group. -/
def extract_float (needB : Bool) (key : List Char) (text : String) : Option ℚ :=
  match searchSomeAt (numPatAt needB key) none text.data with
  | none => none
  | some g => parseFloat g

/-- Embedding of `_extract_int` composed with the same pattern shape. -/
def extract_int (needB : Bool) (key : List Char) (text : String) : Option ℤ :=
  (extract_float needB key text).map pyTrunc

/-- Embedding of `qtc = _extract_int(r"qtc\s*=\s*([0-9.]+)", mini_chart)`. -/
def extract_qtc (mini_chart : String) : Option ℤ :=
  extract_int false ("qtc".data) mini_chart

/-- Embedding of `hr = _extract_int(r"hr\s*=\s*([0-9.]+)", mini_chart)`. -/
def extract_hr (mini_chart : String) : Option ℤ :=
  extract_int false ("hr".data) mini_chart

/-- Embedding of `k = _extract_float(r"\bk\s*=\s*([0-9.]+)", mini_chart)`. -/
def extract_k (mini_chart : String) : Option ℚ :=
  extract_float true ("k".data) mini_chart

/-- Embedding of `mg = _extract_float(r"\bmg\s*=\s*([0-9.]+)", mini_chart)`. -/
def extract_mg (mini_chart : String) : Option ℚ :=
  extract_float true ("mg".data) mini_chart

/-- Split on `,` or `;` (the delimiters `re.split(r",|;|\n", blob)` can
see: the blob never contains a newline, being a single-line group). -/
def splitMeds : List Char → List (List Char)
  | [] => [[]]
  | c :: rest =>
    if c = ',' || c = ';' then [] :: splitMeds rest
    else
      match splitMeds rest with
      | l :: ls => (c :: l) :: ls
      | [] => [[c]]

/-- Python `str.strip()`. -/
def stripWs (l : List Char) : List Char :=
  ((skipSpaces l).reverse |> skipSpaces).reverse

/-- Embedding of `re.sub(r"\s+PRN.*$", "", x, flags=IGNORECASE)`: cut the item at the
first whitespace run followed by "prn". -/
def stripPRN : List Char → List Char
  | [] => []
  | c :: cs =>
    if isSpaceChar c && (matchLitCI ("prn".data) (skipSpaces cs)).isSome then []
    else c :: stripPRN cs

/-- The `meds?\s*:\s*` part after leading whitespace: consumes an
optional `s` and the colon, returning the rest of the line. -/
def afterMedKey (r : List Char) : Option (List Char) :=
  let colonTail (x : List Char) : Option (List Char) :=
    match skipSpaces x with
    | ':' :: rest => some rest
    | _ => none
  match r with
  | c :: cs => if c.toLower = 's' then colonTail cs else colonTail r
  | [] => colonTail r

/-- Does `\s*$` (with `re.MULTILINE`) hold at this position: skipping
whitespace reaches the end of the string or a newline? -/
def lineEndAfter : List Char → Bool
  | [] => true
  | c :: cs => if c = '\n' then true else isSpaceChar c && lineEndAfter cs

/-- Strip trailing whitespace only. -/
def stripEndWs (l : List Char) : List Char := (skipSpaces l.reverse).reverse

/-- The `\s*(.+?)\s*$` part of the meds pattern applied to the text after
the colon, returning the captured group after the caller's `.strip()`.
`\s` crosses newlines but `.` does not, so when any non-whitespace
character follows, the group is the rest of its line with trailing
whitespace dropped; when the remaining text is pure whitespace, the
backtracking engine still matches a single non-newline whitespace
character (stripping to an empty group) provided one exists. -/
def medsGroupAfterColon (r : List Char) : Option (List Char) :=
  let r1 := skipSpaces r
  if r1.isEmpty then
    if !r.isEmpty && r.any (fun c => c ≠ '\n') then some [] else none
  else
    some (stripEndWs (r1.takeWhile (fun c => c ≠ '\n')))

/-- Scan for `(?im)^\s*meds?\s*:\s*(.+?)\s*$` over the whole text.
`anchored` records that every character from the nearest line start to
the current position is whitespace, which is exactly when `^\s*` can
reach the current position. -/
def medsScan : Bool → List Char → Option (List Char)
  | _, [] => none
  | anchored, c :: rest =>
    let here : Option (List Char) :=
      if anchored then
        match matchLitCI ("med".data) (c :: rest) with
        | some r =>
          (match afterMedKey r with
           | some rr => medsGroupAfterColon rr
           | none => none)
        | none => none
      else none
    match here with
    | some g => some g
    | none => medsScan (c = '\n' || (anchored && isSpaceChar c)) rest

/-- Placeholder tokens treated as an absent meds list. -/
def medsBlobPlaceholders : List (List Char) :=
  ["?".data, "unknown".data, "n/a".data, "na".data, "none listed".data]

/-- Placeholder tokens dropped from individual med items. -/
def medItemPlaceholders : List (List Char) :=
  ["?".data, "unknown".data, "n/a".data, "na".data]

/-- Embedding of `_extract_meds` from `rag_pipeline.py`. -/
def extract_meds (text : String) : List String :=
  match medsScan true text.data with
  | none => []
  | some blob =>
    if medsBlobPlaceholders.contains (lowerStr blob) then []
    else
      let items := (splitMeds blob).map stripWs |>.filter (fun x => !x.isEmpty)
      let items := items.map (fun x => stripWs (stripPRN x))
      (items.filter (fun m =>
        !m.isEmpty && !medItemPlaceholders.contains (lowerStr m))).map (fun l => ⟨l⟩)

/-- Embedding of `_has_symptom(mini_chart, *terms)`: lowercase substring containment
of any term. -/
def has_symptom (mini_chart : String) (terms : List String) : Bool :=
  terms.any (fun t => containsSub (lowerStr t.data) (lowerStr mini_chart.data))

/-! ### rag_pipeline.py — derived flags and plan construction -/

/-- Embedding of `high_qtc = (qtc is not None and qtc >= 500)`. -/
def high_qtc (m : String) : Bool :=
  match extract_qtc m with
  | some q => decide (500 ≤ q)
  | none => false

/-- Embedding of `brady = (hr is not None and hr < 60)`. -/
def brady (m : String) : Bool :=
  match extract_hr m with
  | some h => decide (h < 60)
  | none => false

/-- Embedding of `low_k = (k is not None and k < 3.5)`. -/
def low_k (m : String) : Bool :=
  match extract_k m with
  | some k => decide (k < mkRat 7 2)
  | none => false

/-- Embedding of `low_mg = (mg is not None and mg < 1.8)`. -/
def low_mg (m : String) : Bool :=
  match extract_mg m with
  | some v => decide (v < mkRat 9 5)
  | none => false

/-- Embedding of `_is_low_normal_k_mg`, potassium part: `k ≤ 3.5`. -/
def k_low_normal (m : String) : Bool :=
  match extract_k m with
  | some k => decide (k ≤ mkRat 7 2)
  | none => false

/-- Embedding of `_is_low_normal_k_mg`, magnesium part: `mg ≤ 1.8`. -/
def mg_low_normal (m : String) : Bool :=
  match extract_mg m with
  | some v => decide (v ≤ mkRat 9 5)
  | none => false

/-- Embedding of `syncope_like` symptom flag. -/
def syncope_like (m : String) : Bool :=
  has_symptom m ["syncope", "near syncope", "faint", "fainting"]

/-- Embedding of `arrhythmia_like` symptom flag. -/
def arrhythmia_like (m : String) : Bool :=
  has_symptom m ["palpitations", "torsades", "vtach", "ventricular", "seizure"]

/-- Embedding of `structural` symptom flag. -/
def structural (m : String) : Bool :=
  has_symptom m ["chf", "heart failure", "cardiomyopathy", "structural heart"]

/-- The `missing_inputs` list assembled by `_build_evidence_guided_plan`. -/
def missing_inputs (mini_chart : String) : List String :=
  (if (extract_qtc mini_chart).isNone then ["QTc"] else []) ++
  (if (extract_k mini_chart).isNone then ["Potassium (K)"] else []) ++
  (if (extract_mg mini_chart).isNone then ["Magnesium (Mg)"] else []) ++
  (if (extract_meds mini_chart).isEmpty then ["Medication list"] else [])

/-- Smallest exponent `e` (within `fuel`) with `den ∣ 10 ^ e`. -/
def findExpAux (den : ℕ) : ℕ → ℕ → ℕ
  | e, 0 => e
  | e, fuel + 1 => if 10 ^ e % den = 0 then e else findExpAux den (e + 1) fuel

/-- Left-pad with zeros to `n` characters. -/
def padZeros (n : ℕ) (s : String) : String :=
  if s.length < n then String.mk (List.replicate (n - s.length) '0') ++ s else s

/-- CPython `str(float)` on the non-negative decimal values produced by
`parseFloat`: the shortest decimal rendering, with `.0` appended to
integral values.  (Exact for inputs of up to double precision, which is
the regime the mini-chart numbers live in.) -/
def pyFloatStr (q : ℚ) : String :=
  let den := q.den
  let e := findExpAux den 0 40
  let scaled := q.num.toNat * (10 ^ e / den)
  let ip := scaled / 10 ^ e
  let fp := scaled % 10 ^ e
  if e = 0 then toString ip ++ ".0"
  else toString ip ++ "." ++ padZeros e (toString fp)

/-- The `flags` list assembled by `_build_evidence_guided_plan`, in
source order. -/
def risk_flags (mini_chart : String) : List String :=
  (if high_qtc mini_chart then
    ["QTc=" ++ toString ((extract_qtc mini_chart).getD 0) ++ " ms (>=500)"] else []) ++
  (if low_k mini_chart then
    ["K=" ++ pyFloatStr ((extract_k mini_chart).getD 0) ++ " (low)"] else []) ++
  (if low_mg mini_chart then
    ["Mg=" ++ pyFloatStr ((extract_mg mini_chart).getD 0) ++ " (low)"] else []) ++
  (if brady mini_chart then
    ["HR=" ++ toString ((extract_hr mini_chart).getD 0) ++ " (bradycardia)"] else []) ++
  (if !(extract_meds mini_chart).isEmpty then
    [toString (extract_meds mini_chart).length ++ " meds listed"] else []) ++
  (if syncope_like mini_chart then ["syncope (high-risk symptom)"] else [])

/-- Embedding of `"\n".join(e.text ...)` over the evidence list. -/
def evidence_joined_text (evidence : List Evidence) : String :=
  String.intercalate ("\n") (evidence.map Evidence.text)

/-- Embedding of `"telemetry" in evidence_text`. -/
def evidence_mentions_telemetry (evidence : List Evidence) : Bool :=
  containsSub ("telemetry".data) (lowerStr (evidence_joined_text evidence).data)

/-- The telemetry disjunction of `_build_evidence_guided_plan`. -/
def telemetry_recommended (mini_chart : String) (evidence : List Evidence) : Bool :=
  evidence_mentions_telemetry evidence || high_qtc mini_chart || brady mini_chart ||
  syncope_like mini_chart || arrhythmia_like mini_chart || structural mini_chart ||
  decide (2 ≤ (extract_meds mini_chart).length) ||
  (!(extract_meds mini_chart).isEmpty && (low_k mini_chart || low_mg mini_chart))

/-- The fallback risk summary when no flags were extracted. -/
def couldNotDeriveText : String :=
  "QT risk signals could not be confidently derived from the mini-chart; add QTc/K/Mg/HR and a medication list with doses for a more specific plan."

/-- The leading deferral action item for missing extraction inputs. -/
def deferralActionItem (missing : List String) : String :=
  "Safe deferral: Missing key inputs. Required inputs: " ++
    String.intercalate (", ") missing ++ "."

/-- Electrolyte action for frankly low / high-QTc situations. -/
def electrolytesLowText : String :=
  "Correct electrolytes first. Aim to maintain potassium toward the higher end of normal (often cited target K=4.0–5.0 mEq/L in QT-risk prevention pathways) and correct magnesium to normal/high-normal per local protocol."

/-- Electrolyte action for low-normal values. -/
def electrolytesLowNormalText : String :=
  "Correct electrolytes / optimize K and Mg (even low-normal values can matter in QT-risk settings), then reassess QTc after stabilization."

/-- Medication review action. -/
def medsReviewText : String :=
  "Review necessity of QT-prolonging agents and consider alternatives where feasible (avoid absolute \x27hold\x27 language unless your source explicitly mandates it)."

/-- Telemetry / repeat-ECG action for higher-risk scenarios. -/
def telemetryText : String :=
  "Repeat ECG after electrolyte correction and/or medication adjustments; consider telemetry in higher-risk scenarios (e.g., QTc >= 500 ms, multiple QT-prolonging agents, symptoms, bradycardia, structural heart disease)."

/-- Repeat-ECG action when telemetry is not recommended. -/
def repeatEcgText : String :=
  "If QT risk remains uncertain, obtain repeat ECG and trend QTc after checking/correcting electrolytes and reviewing medications."

/-- Patient counseling produced by `_build_evidence_guided_plan`. -/
def counselingText : String :=
  "To reduce the risk of an abnormal heart rhythm, your care team may correct low potassium/magnesium and review medications that can affect QT. Seek urgent care for fainting, severe dizziness, or palpitations."

/-- Embedding of `_build_evidence_guided_plan`: returns
`(risk_summary, action_plan, patient_counseling, missing_critical)`.
The action plan is written as the concatenation of the conditional
appends performed by the source. -/
def build_evidence_guided_plan (mini_chart : String) (evidence : List Evidence) :
    String × List String × String × Bool :=
  let missing := missing_inputs mini_chart
  let missing_critical := !missing.isEmpty
  let flags := risk_flags mini_chart
  let risk_summary :=
    if !flags.isEmpty then
      "Higher QT/TdP risk signals present: " ++ String.intercalate ("; ") flags ++ "."
    else couldNotDeriveText
  let action_plan :=
    (if missing_critical then [deferralActionItem missing] else []) ++
    (if low_k mini_chart || low_mg mini_chart || high_qtc mini_chart then
      [electrolytesLowText]
     else if k_low_normal mini_chart || mg_low_normal mini_chart then
      [electrolytesLowNormalText]
     else []) ++
    (if !(extract_meds mini_chart).isEmpty then [medsReviewText] else []) ++
    (if telemetry_recommended mini_chart evidence then [telemetryText] else [repeatEcgText])
  (risk_summary, action_plan, counselingText, missing_critical)

/-! ### rag_pipeline.py — audit notes and top-level composition -/

/-- Embedding of `_strip_noise_notes` denylist. -/
def bad_substrings : List String :=
  ["medgemma", "gated repo", "cannot access gated repo", "401 client error",
   "you are trying to access a gated repo", "please log in", "hf hub"]

/-- Embedding of `_strip_noise_notes` from `rag_pipeline.py`. -/
def strip_noise_notes (notes : List String) : List String :=
  notes.filter (fun n => !bad_substrings.any (fun b => containsSub b.data (lowerStr n.data)))

/-- Embedding of `f"{q:.3f}"` on an exact rational: three decimals, round half to even. -/
def fmt3Rat (q : ℚ) : String :=
  let neg := decide (q < 0)
  let a := if neg then -q else q
  let n0 := a.num.toNat * 1000
  let d := a.den
  let fl := n0 / d
  let r2 := n0 % d * 2
  let n := if d < r2 then fl + 1 else if r2 < d then fl else if fl % 2 = 0 then fl else fl + 1
  (if neg then "-" else "") ++ toString (n / 1000) ++ "." ++ padZeros 3 (toString (n % 1000))

/-- Embedding of `f"{x:.3f}"` where `x` may be `float("-inf")`. -/
def fmt3Bot (x : WithBot ℚ) : String :=
  Option.rec ("-inf") (fun q => fmt3Rat q) x

/-- Embedding of `f"{x:.3f}"` where `x` may be `float("inf")`. -/
def fmt3Top (x : WithTop ℚ) : String :=
  Option.rec ("inf") (fun q => fmt3Rat q) x

/-- Python `str(bool)`. -/
def pyBool : Bool → String
  | true => "True"
  | false => "False"

/-- The fixed anchor terms prepended by `_build_retrieval_query`. -/
def anchorTerms : String :=
  "QT prolongation torsades QTc telemetry repeat ECG potassium 4.0 5.0 mEq/L K repletion target magnesium Mg medication list doses consider alternatives review necessity syncope palpitations bradycardia structural heart disease multiple QT drugs ondansetron azithromycin citalopram haloperidol amiodarone "

/-- Embedding of `_build_retrieval_query` from `rag_pipeline.py`. -/
def build_retrieval_query (mini_chart : String) : String :=
  anchorTerms ++ mini_chart

/-- The citation lines of `_evidence_notes` (1-based ordinals). -/
def evidence_note_lines (evidence : List Evidence) (top_n : ℕ) : List String :=
  (evidence.take top_n).enum.map (fun p =>
    "[E" ++ toString (p.1 + 1) ++ "] " ++ p.2.title ++ " — " ++ p.2.«section» ++
    " — score=" ++ fmt3Rat p.2.score ++ " — " ++ p.2.chunk_id)

/-- Embedding of `_evidence_notes` from `rag_pipeline.py`. -/
def evidence_notes (evidence : List Evidence) (top_n : ℕ) : List String :=
  if evidence.isEmpty then ["No evidence retrieved."]
  else "Evidence retrieved (reranked):" :: evidence_note_lines evidence top_n

/-- Fixed weak-branch risk summary. -/
def lowConfidenceText : String :=
  "Evidence confidence is low for this query. Safe deferral recommended until key clinical inputs and/or stronger supporting references are available."

/-- First weak-branch deferral action. -/
def weakDeferralAction1 : String :=
  "Safe deferral: confirm QTc, potassium (K), magnesium (Mg), medication list with doses, and renal/hepatic status if available."

/-- Second weak-branch deferral action. -/
def weakDeferralAction2 : String :=
  "Expand the knowledge base with trusted references to enable citation-grounded recommendations."

/-- The retrieval-diagnostics audit note. -/
def diagnosticsNote (top_score : WithBot ℚ) (margin : WithTop ℚ) (weak_for_eval : Bool)
    (score_threshold margin_threshold : ℚ) : String :=
  "Retrieval diagnostics: top_score=" ++ fmt3Bot top_score ++ "; margin=" ++ fmt3Top margin ++
  "; weak=" ++ pyBool weak_for_eval ++ "; score_threshold=" ++ fmt3Rat score_threshold ++
  "; margin_threshold=" ++ fmt3Rat margin_threshold

/-- Embedding of `run_qtguard_with_retrieval` from `rag_pipeline.py`.  The evidence
list (the value of `retriever.search(query)` in the source, produced by
external embedding/reranking models) is taken as an argument; everything
downstream of it is embedded.  Returns `(output, evidence, weak_for_eval)`. -/
def run_qtguard_with_retrieval (mini_chart : String) (evidence : List Evidence)
    (score_threshold margin_threshold : ℚ) (top_n_notes : ℕ) :
    QTGuardOutput × List Evidence × Bool :=
  let query := build_retrieval_query mini_chart
  let gate := is_evidence_weak evidence score_threshold margin_threshold
  let weak := gate.1
  let base := build_safe_output mini_chart
  let notes0 := strip_noise_notes base.audit_view.notes
  let plan := build_evidence_guided_plan mini_chart evidence
  let missing_critical := plan.2.2.2
  let out1 : QTGuardOutput :=
    if weak then
      { base with
          risk_summary := lowConfidenceText
          action_plan := weakDeferralAction1 :: weakDeferralAction2 :: base.action_plan }
    else
      { base with
          risk_summary := plan.1
          action_plan := plan.2.1
          patient_counseling := plan.2.2.1 }
  let weak_for_eval := weak || missing_critical
  let notes := notes0 ++
    [diagnosticsNote gate.2.1 gate.2.2 weak_for_eval score_threshold margin_threshold,
     "Retrieval query: " ++ query] ++ evidence_notes evidence top_n_notes
  ({ out1 with audit_view := { missing_data := out1.audit_view.missing_data, notes := notes } },
   evidence, weak_for_eval)

/-! ### retrieval.py -/

/-- One corpus row as the code sees it: the values of
`r.get("title", "")`, `r.get("section", "")`, `r.get("chunk_id", "")`
and `r["text"]` (a record without a `chunk_id` key appears here with
`chunk_id = ""`). -/
structure Row where
  title : String
  «section» : String
  chunk_id : String
  text : String
deriving DecidableEq

/-- One parsed JSONL record, projected to the fields the code reads;
`text = none` models a record without a `"text"` key. -/
structure RawRecord where
  title : String
  «section» : String
  chunk_id : String
  text : Option String
deriving DecidableEq

/-- The corpus-loading loop of `HybridRetriever.__init__`: keep exactly
the records that carry a `text` field. -/
def loadRows (records : List RawRecord) : List Row :=
  records.filterMap (fun r => r.text.map (fun t => ⟨r.title, r.«section», r.chunk_id, t⟩))

/-- Embedding of `HybridRetriever.__init__` up to the `if not self.rows: raise`
check: the constructor either fails (the `RuntimeError`) or produces
the row list every later `search` runs over. -/
def initRetriever (chunks_path : String) (records : List RawRecord) :
    Except String (List Row) :=
  let rows := loadRows records
  if rows.isEmpty then
    Except.error ("No chunks loaded from " ++ chunks_path ++ ". Is the file empty?")
  else Except.ok rows

/-- Order-preserving dedup, i.e. `list(dict.fromkeys(xs))`. -/
def dedupFirstAux {α : Type} [DecidableEq α] : List α → List α → List α
  | _, [] => []
  | seen, a :: as =>
    if a ∈ seen then dedupFirstAux seen as else a :: dedupFirstAux (a :: seen) as

/-- Embedding of `list(dict.fromkeys(xs))`. -/
def dedupFirst {α : Type} [DecidableEq α] (l : List α) : List α :=
  dedupFirstAux [] l

/-- Stable ascending insertion by score, used to model `np.argsort`
(ties in `np.argsort`'s quicksort are in unspecified order; this model
resolves them stably, one legitimate refinement). -/
def insertAscBy (score : ℕ → ℚ) (i : ℕ) : List ℕ → List ℕ
  | [] => [i]
  | j :: rest => if score i ≤ score j then i :: j :: rest else j :: insertAscBy score i rest

/-- Embedding of `np.argsort(scores)`: index list sorted by score ascending. -/
def argsortAsc (scores : List ℚ) : List ℕ :=
  (List.range scores.length).foldr (insertAscBy (fun i => scores.getD i 0)) []

/-- Embedding of `_bm25_candidates`: `np.argsort(scores)[::-1][:candidate_k]`,
emitted as Python ints.  The BM25 score array (one score per row, a
function of the query) is an input, the keyword scorer being an
external library primitive. -/
def bm25_candidates (bm25_scores : List ℚ) (candidate_k : ℕ) : List ℤ :=
  ((argsortAsc bm25_scores).reverse.take candidate_k).map Int.ofNat

/-- The `Evidence(...)` constructor call inside `search`. -/
def Row.toEvidence (c : Row) (s : ℚ) : Evidence :=
  ⟨c.title, c.«section», c.chunk_id, c.text, s⟩

/-- Stable descending insertion by reranker score. -/
def insertDesc (p : Row × ℚ) : List (Row × ℚ) → List (Row × ℚ)
  | [] => [p]
  | q :: rest => if q.2 ≤ p.2 then p :: q :: rest else q :: insertDesc p rest

/-- Embedding of `sorted(pairs, key=score, reverse=True)`: Python's sort is stable,
and a stable descending sort is unique, so stable insertion sort is an
exact model. -/
def sortDesc (l : List (Row × ℚ)) : List (Row × ℚ) :=
  l.foldr insertDesc []

/-- The dedup-and-truncate loop at the end of `search`: skip an item
whose nonempty `chunk_id` was seen, remember nonempty ids, and stop
once `top_k` items have been emitted (the length check runs after each
append). -/
def dedupTakeAux (top_k : ℕ) : ℕ → List String → List (Row × ℚ) → List Evidence
  | _, _, [] => []
  | count, seen, (c, s) :: rest =>
    if c.chunk_id ≠ "" ∧ c.chunk_id ∈ seen then
      dedupTakeAux top_k count seen rest
    else
      let seen2 := if c.chunk_id ≠ "" then c.chunk_id :: seen else seen
      if top_k ≤ count + 1 then [c.toEvidence s]
      else c.toEvidence s :: dedupTakeAux top_k (count + 1) seen2 rest

/-- Embedding of `HybridRetriever.search`.  The BM25 score array and the FAISS index
result (`vec_top`, which may contain out-of-range ids such as `-1`) are
inputs, and the cross-encoder is an input function from passage text to
relevance score (its scores for one query depend only on the passage
text); everything else — candidate union, bounds filtering, reranking,
stable descending sort, dedup and truncation — is embedded. -/
def search (rows : List Row) (candidate_k top_k : ℕ) (reranker : String → String → ℚ)
    (bm25_scores : List ℚ) (vec_top : List ℤ) (query : String) : List Evidence :=
  let bm25_top := bm25_candidates bm25_scores candidate_k
  let cand_ids := dedupFirst (bm25_top ++ vec_top)
  let candidates := (cand_ids.filter (fun i => decide (0 ≤ i) && decide (i < (rows.length : ℤ)))).map
    (fun i => rows.getD i.toNat ⟨"", "", "", ""⟩)
  if candidates.isEmpty then []
  else
    let ranked := sortDesc (candidates.map (fun c => (c, reranker query c.text)))
    dedupTakeAux top_k 0 [] ranked

/-- Claim C1: for every non-empty evidence list and all thresholds, the
gate returns `weak = (top < score_threshold)` when `top ≥ 1/2` (margin
ignored), and `weak = (top < score_threshold ∨ margin < margin_threshold)`
when `top < 1/2`, where the margin is `top - second` or `+∞` for a
single-item list. -/
theorem gate_regime_split (e : Evidence) (rest : List Evidence)
    (score_threshold margin_threshold : ℚ) :
    (is_evidence_weak (e :: rest) score_threshold margin_threshold).2.2 =
      (match rest with
       | [] => (⊤ : WithTop ℚ)
       | e2 :: _ => ((e.score - e2.score : ℚ) : WithTop ℚ)) ∧
    (mkRat 1 2 ≤ e.score →
      ((is_evidence_weak (e :: rest) score_threshold margin_threshold).1 = true ↔
        e.score < score_threshold)) ∧
    (e.score < mkRat 1 2 →
      ((is_evidence_weak (e :: rest) score_threshold margin_threshold).1 = true ↔
        (e.score < score_threshold ∨
          (is_evidence_weak (e :: rest) score_threshold margin_threshold).2.2 <
            ((margin_threshold : ℚ) : WithTop ℚ)))) := by
  refine ⟨?_, ?_, ?_⟩
  · cases rest <;> rfl
  · intro h
    simp only [is_evidence_weak]
    rw [if_pos h]
    simp
  · intro h
    have hnot : ¬ (mkRat 1 2 ≤ e.score) := not_le.mpr h
    simp only [is_evidence_weak]
    rw [if_neg hnot]
    simp

/-- Witness for C1 at the spec example: evidence scores `[0.6, 0.1]` with
`score_threshold = 0`, `margin_threshold = 10` give `weak = false`. -/
theorem gate_regime_split_witness :
    (is_evidence_weak [⟨"", "", "", "", mkRat 3 5⟩, ⟨"", "", "", "", mkRat 1 10⟩]
      0 10).1 = false := by
  have h := (gate_regime_split ⟨"", "", "", "", mkRat 3 5⟩ [⟨"", "", "", "", mkRat 1 10⟩]
    0 10).2.1 (by decide)
  have hlt : ¬ ((mkRat 3 5 : ℚ) < 0) := by decide
  cases hb : (is_evidence_weak [⟨"", "", "", "", mkRat 3 5⟩, ⟨"", "", "", "", mkRat 1 10⟩]
      0 10).1
  · rfl
  · exact absurd (h.mp hb) hlt

/-- Claim C6 counterexample: on the empty evidence list the gate returns
`margin = 0`, not `+∞`, so the claim fails for lists of fewer than two
items that are empty. -/
theorem gate_empty_margin_cex :
    (is_evidence_weak [] 0 (mkRat 1 5)).2.2 = ((0 : ℚ) : WithTop ℚ) ∧
    ¬ ((is_evidence_weak [] 0 (mkRat 1 5)).2.2 = (⊤ : WithTop ℚ)) := by
  exact ⟨rfl, by decide⟩

/-- Claim C6 (amended): for every evidence list with exactly one item and
all thresholds the gate returns `margin = +∞`; for the empty list it
returns `margin = 0`. -/
theorem gate_margin_short_lists (e : Evidence) (score_threshold margin_threshold : ℚ) :
    (is_evidence_weak [e] score_threshold margin_threshold).2.2 = (⊤ : WithTop ℚ) ∧
    (is_evidence_weak [] score_threshold margin_threshold).2.2 = ((0 : ℚ) : WithTop ℚ) :=
  ⟨rfl, rfl⟩

/-! ### Sorting and dedup lemmas for `search` -/

theorem mem_insertDesc {x p : Row × ℚ} {l : List (Row × ℚ)} :
    x ∈ insertDesc p l ↔ x = p ∨ x ∈ l := by
  induction l with
  | nil => simp [insertDesc]
  | cons q rest ih =>
    by_cases h : q.2 ≤ p.2
    · simp [insertDesc, h]
    · simp only [insertDesc, if_neg h, List.mem_cons, ih]
      tauto

theorem pairwise_insertDesc (p : Row × ℚ) (l : List (Row × ℚ))
    (h : l.Pairwise (fun a b => b.2 ≤ a.2)) :
    (insertDesc p l).Pairwise (fun a b => b.2 ≤ a.2) := by
  induction l with
  | nil => simp [insertDesc]
  | cons q rest ih =>
    rcases List.pairwise_cons.mp h with ⟨hq, hrest⟩
    by_cases hle : q.2 ≤ p.2
    · rw [insertDesc, if_pos hle]
      refine List.pairwise_cons.mpr ⟨?_, h⟩
      intro x hx
      rcases List.mem_cons.mp hx with rfl | hx2
      · exact hle
      · exact le_trans (hq x hx2) hle
    · rw [insertDesc, if_neg hle]
      refine List.pairwise_cons.mpr ⟨?_, ih hrest⟩
      intro x hx
      rcases mem_insertDesc.mp hx with rfl | hx2
      · exact le_of_not_le hle
      · exact hq x hx2

theorem sortDesc_pairwise (l : List (Row × ℚ)) :
    (sortDesc l).Pairwise (fun a b => b.2 ≤ a.2) := by
  induction l with
  | nil => simp [sortDesc]
  | cons p rest ih => exact pairwise_insertDesc p (sortDesc rest) ih

theorem mem_sortDesc {x : Row × ℚ} {l : List (Row × ℚ)} :
    x ∈ sortDesc l ↔ x ∈ l := by
  induction l with
  | nil => simp [sortDesc]
  | cons p rest ih =>
    simp only [sortDesc] at ih ⊢
    rw [List.foldr_cons, mem_insertDesc, ih, List.mem_cons]

theorem length_insertDesc (p : Row × ℚ) (l : List (Row × ℚ)) :
    (insertDesc p l).length = l.length + 1 := by
  induction l with
  | nil => rfl
  | cons q rest ih =>
    by_cases h : q.2 ≤ p.2
    · simp [insertDesc, h]
    · simp [insertDesc, h, ih]

theorem length_sortDesc (l : List (Row × ℚ)) : (sortDesc l).length = l.length := by
  induction l with
  | nil => rfl
  | cons p rest ih =>
    simp only [sortDesc] at ih ⊢
    rw [List.foldr_cons, length_insertDesc, ih, List.length_cons]

theorem dedupTakeAux_mem {tk n : ℕ} {seen : List String} {l : List (Row × ℚ)}
    {x : Evidence} (hx : x ∈ dedupTakeAux tk n seen l) :
    ∃ p ∈ l, x = Row.toEvidence p.1 p.2 := by
  induction l generalizing n seen with
  | nil => simp [dedupTakeAux] at hx
  | cons p rest ih =>
    rw [dedupTakeAux] at hx
    by_cases hskip : p.1.chunk_id ≠ "" ∧ p.1.chunk_id ∈ seen
    · rw [if_pos hskip] at hx
      rcases ih hx with ⟨q, hq, hxq⟩
      exact ⟨q, List.mem_cons_of_mem _ hq, hxq⟩
    · rw [if_neg hskip] at hx
      by_cases hstop : tk ≤ n + 1
      · rw [if_pos hstop] at hx
        rcases List.mem_singleton.mp hx with rfl
        exact ⟨p, List.mem_cons_self _ _, rfl⟩
      · rw [if_neg hstop] at hx
        rcases List.mem_cons.mp hx with rfl | hx2
        · exact ⟨p, List.mem_cons_self _ _, rfl⟩
        · rcases ih hx2 with ⟨q, hq, hxq⟩
          exact ⟨q, List.mem_cons_of_mem _ hq, hxq⟩

theorem dedupTakeAux_pairwise_score {tk n : ℕ} {seen : List String}
    {l : List (Row × ℚ)} (h : l.Pairwise (fun a b => b.2 ≤ a.2)) :
    (dedupTakeAux tk n seen l).Pairwise (fun a b => b.score ≤ a.score) := by
  induction l generalizing n seen with
  | nil => simp [dedupTakeAux]
  | cons p rest ih =>
    rcases List.pairwise_cons.mp h with ⟨hp, hrest⟩
    rw [dedupTakeAux]
    by_cases hskip : p.1.chunk_id ≠ "" ∧ p.1.chunk_id ∈ seen
    · rw [if_pos hskip]
      exact ih hrest
    · rw [if_neg hskip]
      by_cases hstop : tk ≤ n + 1
      · rw [if_pos hstop]
        simp
      · rw [if_neg hstop]
        refine List.pairwise_cons.mpr ⟨?_, ih hrest⟩
        intro x hx
        rcases dedupTakeAux_mem hx with ⟨q, hq, rfl⟩
        exact hp q hq

theorem dedupTakeAux_notin_seen {tk n : ℕ} {seen : List String}
    {l : List (Row × ℚ)} {x : Evidence} (hx : x ∈ dedupTakeAux tk n seen l)
    (hid : x.chunk_id ≠ "") : x.chunk_id ∉ seen := by
  induction l generalizing n seen with
  | nil => simp [dedupTakeAux] at hx
  | cons p rest ih =>
    rw [dedupTakeAux] at hx
    by_cases hskip : p.1.chunk_id ≠ "" ∧ p.1.chunk_id ∈ seen
    · rw [if_pos hskip] at hx
      exact ih hx
    · rw [if_neg hskip] at hx
      by_cases hstop : tk ≤ n + 1
      · rw [if_pos hstop] at hx
        rcases List.mem_singleton.mp hx with rfl
        intro hmem
        exact hskip ⟨hid, hmem⟩
      · rw [if_neg hstop] at hx
        rcases List.mem_cons.mp hx with rfl | hx2
        · intro hmem
          exact hskip ⟨hid, hmem⟩
        · intro hmem
          by_cases hpid : p.1.chunk_id = ""
          · have : (if p.1.chunk_id ≠ "" then p.1.chunk_id :: seen else seen) = seen := by
              rw [if_neg]
              simpa using hpid
            rw [this] at hx2
            exact ih hx2 hmem
          · have : (if p.1.chunk_id ≠ "" then p.1.chunk_id :: seen else seen) =
                p.1.chunk_id :: seen := by
              rw [if_pos hpid]
            rw [this] at hx2
            exact ih hx2 (List.mem_cons_of_mem _ hmem)

theorem dedupTakeAux_pairwise_cid {tk n : ℕ} {seen : List String}
    {l : List (Row × ℚ)} :
    (dedupTakeAux tk n seen l).Pairwise
      (fun a b => a.chunk_id = b.chunk_id → a.chunk_id = "") := by
  induction l generalizing n seen with
  | nil => simp [dedupTakeAux]
  | cons p rest ih =>
    rw [dedupTakeAux]
    by_cases hskip : p.1.chunk_id ≠ "" ∧ p.1.chunk_id ∈ seen
    · rw [if_pos hskip]
      exact ih
    · rw [if_neg hskip]
      by_cases hstop : tk ≤ n + 1
      · rw [if_pos hstop]
        simp
      · rw [if_neg hstop]
        refine List.pairwise_cons.mpr ⟨?_, ih⟩
        intro x hx heq
        by_contra hne
        have hxid : x.chunk_id ≠ "" := by
          intro h0
          exact hne (heq.trans h0)
        have hxs := dedupTakeAux_notin_seen hx hxid
        have hmem : x.chunk_id ∈ (if p.1.chunk_id ≠ "" then p.1.chunk_id :: seen else seen) := by
          rw [if_pos]
          · rw [← heq]
            exact List.mem_cons_self _ _
          · simpa [Row.toEvidence] using hne
        exact hxs hmem

theorem dedupTakeAux_length (tk : ℕ) (n : ℕ) (seen : List String)
    (l : List (Row × ℚ)) :
    (dedupTakeAux tk n seen l).length ≤ max (tk - n) 1 := by
  induction l generalizing n seen with
  | nil => simp [dedupTakeAux]
  | cons p rest ih =>
    rw [dedupTakeAux]
    by_cases hskip : p.1.chunk_id ≠ "" ∧ p.1.chunk_id ∈ seen
    · rw [if_pos hskip]
      exact ih n seen
    · rw [if_neg hskip]
      by_cases hstop : tk ≤ n + 1
      · rw [if_pos hstop]
        simp [Nat.le_max_right]
      · rw [if_neg hstop]
        have h2 := ih (n + 1) (if p.1.chunk_id ≠ "" then p.1.chunk_id :: seen else seen)
        simp only [List.length_cons]
        omega

theorem dedupTakeAux_ne_nil (tk n : ℕ) (p : Row × ℚ) (rest : List (Row × ℚ)) :
    dedupTakeAux tk n [] (p :: rest) ≠ [] := by
  rw [dedupTakeAux]
  have hskip : ¬ (p.1.chunk_id ≠ "" ∧ p.1.chunk_id ∈ ([] : List String)) := by
    simp
  rw [if_neg hskip]
  by_cases hstop : tk ≤ n + 1
  · rw [if_pos hstop]
    simp
  · rw [if_neg hstop]
    simp

theorem length_insertAscBy (score : ℕ → ℚ) (i : ℕ) (l : List ℕ) :
    (insertAscBy score i l).length = l.length + 1 := by
  induction l with
  | nil => rfl
  | cons j rest ih =>
    by_cases h : score i ≤ score j
    · simp [insertAscBy, h]
    · simp [insertAscBy, h, ih]

theorem mem_insertAscBy {score : ℕ → ℚ} {i x : ℕ} {l : List ℕ} :
    x ∈ insertAscBy score i l ↔ x = i ∨ x ∈ l := by
  induction l with
  | nil => simp [insertAscBy]
  | cons j rest ih =>
    by_cases h : score i ≤ score j
    · simp [insertAscBy, h]
    · simp only [insertAscBy, if_neg h, List.mem_cons, ih]
      tauto

theorem length_argsortAsc (scores : List ℚ) :
    (argsortAsc scores).length = scores.length := by
  rw [argsortAsc]
  have : ∀ l : List ℕ, (l.foldr (insertAscBy (fun i => scores.getD i 0)) []).length = l.length := by
    intro l
    induction l with
    | nil => rfl
    | cons j rest ih => rw [List.foldr_cons, length_insertAscBy, ih, List.length_cons]
  rw [this, List.length_range]

theorem mem_argsortAsc {scores : List ℚ} {x : ℕ} (hx : x ∈ argsortAsc scores) :
    x < scores.length := by
  rw [argsortAsc] at hx
  have : ∀ l : List ℕ, x ∈ l.foldr (insertAscBy (fun i => scores.getD i 0)) [] → x ∈ l := by
    intro l
    induction l with
    | nil => simp
    | cons j rest ih =>
      intro hmem
      rw [List.foldr_cons] at hmem
      rcases mem_insertAscBy.mp hmem with rfl | h2
      · exact List.mem_cons_self _ _
      · exact List.mem_cons_of_mem _ (ih h2)
  exact List.mem_range.mp (this _ hx)

theorem mem_dedupFirstAux_iff {α : Type} [DecidableEq α] {seen l : List α} {x : α} :
    x ∈ dedupFirstAux seen l ↔ x ∈ l ∧ x ∉ seen := by
  induction l generalizing seen with
  | nil => simp [dedupFirstAux]
  | cons a as ih =>
    rw [dedupFirstAux]
    by_cases h : a ∈ seen
    · rw [if_pos h, ih, List.mem_cons]
      constructor
      · exact fun ⟨h1, h2⟩ => ⟨Or.inr h1, h2⟩
      · rintro ⟨rfl | h1, h2⟩
        · exact absurd h h2
        · exact ⟨h1, h2⟩
    · rw [if_neg h, List.mem_cons, ih, List.mem_cons, List.mem_cons]
      by_cases hxa : x = a
      · subst hxa
        constructor
        · exact fun _ => ⟨Or.inl rfl, h⟩
        · exact fun _ => Or.inl rfl
      · constructor
        · rintro (rfl | ⟨h1, h2⟩)
          · exact absurd rfl hxa
          · exact ⟨Or.inr h1, fun hs => h2 (Or.inr hs)⟩
        · rintro ⟨rfl | h1, h2⟩
          · exact absurd rfl hxa
          · exact Or.inr ⟨h1, fun hs => h2 (hs.elim (fun he => absurd he hxa) id)⟩

theorem dedupFirst_cons_ne_nil {α : Type} [DecidableEq α] (a : α) (l : List α) :
    dedupFirst (a :: l) ≠ [] := by
  rw [dedupFirst, dedupFirstAux, if_neg (List.not_mem_nil a)]
  simp

/-- Claim C5 counterexample: a corpus whose rows carry no `chunk_id`
(modelled as the empty string, the `c.get("chunk_id", "")` default) can
yield a result list in which two items share a `chunk_id`, because the
dedup step skips only nonempty ids. -/
theorem search_dup_chunk_id_cex :
    ((search [⟨"T1", "s", "", "t1"⟩, ⟨"T2", "s", "", "t2"⟩] 2 6 (fun _ _ => 0)
        [0, 0] [] "q").map Evidence.chunk_id) = ["", ""] ∧
    ¬ List.Pairwise (fun a b => a ≠ b)
      ((search [⟨"T1", "s", "", "t1"⟩, ⟨"T2", "s", "", "t2"⟩] 2 6 (fun _ _ => 0)
        [0, 0] [] "q").map Evidence.chunk_id) := by
  constructor
  · rfl
  · decide

/-- Claim C5 (amended): for every corpus, candidate pool, reranker and
query, the evidence list returned by `search` has scores monotonically
non-increasing by position, and no two items share a nonempty
`chunk_id` (rows without a chunk id — empty string — are exempt from
deduplication). -/
theorem search_sorted_and_dedup (rows : List Row) (candidate_k top_k : ℕ)
    (reranker : String → String → ℚ) (bm25_scores : List ℚ) (vec_top : List ℤ)
    (query : String) :
    List.Pairwise (fun a b => b.score ≤ a.score)
      (search rows candidate_k top_k reranker bm25_scores vec_top query) ∧
    List.Pairwise (fun a b => a.chunk_id = b.chunk_id → a.chunk_id = "")
      (search rows candidate_k top_k reranker bm25_scores vec_top query) := by
  rw [search]
  by_cases hc :
    ((dedupFirst (bm25_candidates bm25_scores candidate_k ++ vec_top)).filter
      (fun i => decide (0 ≤ i) && decide (i < (rows.length : ℤ)))).map
      (fun i => rows.getD i.toNat ⟨"", "", "", ""⟩) |>.isEmpty
  · simp only [hc, if_true]
    exact ⟨List.Pairwise.nil, List.Pairwise.nil⟩
  · simp only [hc, if_false, Bool.false_eq_true]
    exact ⟨dedupTakeAux_pairwise_score (sortDesc_pairwise _), dedupTakeAux_pairwise_cid⟩

/-- Claim C7 counterexample: with `top_k = 0` (a configurable
constructor argument) the loop still emits one item before the
post-append length check fires, so the returned length exceeds `top_k`;
and with `candidate_k = 0` no candidates are generated, so `search`
returns the empty list even over a non-empty corpus. -/
theorem search_topk_zero_cex :
    (search [⟨"T1", "s", "c1", "t1"⟩] 1 0 (fun _ _ => 0) [0] [] "q").length = 1 ∧
    ¬ ((search [⟨"T1", "s", "c1", "t1"⟩] 1 0 (fun _ _ => 0) [0] [] "q").length ≤ 0) ∧
    search [⟨"T1", "s", "c1", "t1"⟩] 0 6 (fun _ _ => 0) [0] [] "q" = [] := by
  refine ⟨rfl, by decide, rfl⟩

/-- Claim C7 (amended): for every corpus with at least one row, matching
BM25 score array, candidate pool of at least one, and any query,
`search` returns a non-empty evidence list of length at most
`max top_k 1` — i.e. at most `top_k` whenever `top_k ≥ 1`, while
`top_k = 0` still returns one item. -/
theorem search_nonempty_bounded (rows : List Row) (candidate_k top_k : ℕ)
    (reranker : String → String → ℚ) (bm25_scores : List ℚ) (vec_top : List ℤ)
    (query : String) (hrows : rows ≠ []) (hlen : bm25_scores.length = rows.length)
    (hck : 1 ≤ candidate_k) (_hq : 0 < query.length) :
    search rows candidate_k top_k reranker bm25_scores vec_top query ≠ [] ∧
    (search rows candidate_k top_k reranker bm25_scores vec_top query).length ≤
      max top_k 1 := by
  have hn : 0 < rows.length := List.length_pos.mpr hrows
  -- the bm25 candidate list contains a valid index
  obtain ⟨i, hi, hmem⟩ : ∃ i : ℕ, i < rows.length ∧
      (Int.ofNat i) ∈ bm25_candidates bm25_scores candidate_k ++ vec_top := by
    have hlen2 : (argsortAsc bm25_scores).reverse.length = rows.length := by
      rw [List.length_reverse, length_argsortAsc, hlen]
    have hne : (argsortAsc bm25_scores).reverse ≠ [] := by
      intro h0
      rw [h0] at hlen2
      simp only [List.length_nil] at hlen2
      omega
    rcases List.exists_cons_of_ne_nil hne with ⟨a, as, hcons⟩
    have ha : a ∈ argsortAsc bm25_scores := by
      have : a ∈ (argsortAsc bm25_scores).reverse := by
        rw [hcons]
        exact List.mem_cons_self _ _
      exact List.mem_reverse.mp this
    refine ⟨a, by rw [← hlen]; exact mem_argsortAsc ha, ?_⟩
    apply List.mem_append_left
    rw [bm25_candidates, hcons]
    rcases Nat.exists_eq_add_of_le hck with ⟨k2, hk2⟩
    rw [hk2]
    simp [List.take_cons]
  -- hence the filtered, mapped candidate list is nonempty
  have hdedup : (Int.ofNat i) ∈
      dedupFirst (bm25_candidates bm25_scores candidate_k ++ vec_top) := by
    rw [dedupFirst]
    exact mem_dedupFirstAux_iff.mpr ⟨hmem, List.not_mem_nil _⟩
  have hfilter : (Int.ofNat i) ∈
      (dedupFirst (bm25_candidates bm25_scores candidate_k ++ vec_top)).filter
        (fun j => decide (0 ≤ j) && decide (j < (rows.length : ℤ))) := by
    refine List.mem_filter.mpr ⟨hdedup, ?_⟩
    simp only [Bool.and_eq_true, decide_eq_true_eq]
    exact ⟨Int.ofNat_nonneg i, Int.ofNat_lt.mpr hi⟩
  have hcne :
      ((dedupFirst (bm25_candidates bm25_scores candidate_k ++ vec_top)).filter
        (fun j => decide (0 ≤ j) && decide (j < (rows.length : ℤ)))).map
        (fun j => rows.getD j.toNat ⟨"", "", "", ""⟩) ≠ [] :=
    List.ne_nil_of_mem (List.mem_map_of_mem _ hfilter)
  simp only [search]
  have hie :
      (((dedupFirst (bm25_candidates bm25_scores candidate_k ++ vec_top)).filter
        (fun j => decide (0 ≤ j) && decide (j < (rows.length : ℤ)))).map
        (fun j => rows.getD j.toNat ⟨"", "", "", ""⟩)).isEmpty = false := by
    cases hc : ((dedupFirst (bm25_candidates bm25_scores candidate_k ++ vec_top)).filter
        (fun j => decide (0 ≤ j) && decide (j < (rows.length : ℤ)))).map
        (fun j => rows.getD j.toNat ⟨"", "", "", ""⟩) with
    | nil => exact absurd hc hcne
    | cons c cs => rfl
  rw [hie]
  simp only [Bool.false_eq_true, if_false]
  have hrne : sortDesc
      ((((dedupFirst (bm25_candidates bm25_scores candidate_k ++ vec_top)).filter
        (fun j => decide (0 ≤ j) && decide (j < (rows.length : ℤ)))).map
        (fun j => rows.getD j.toNat ⟨"", "", "", ""⟩)).map
        (fun c => (c, reranker query c.text))) ≠ [] := by
    intro h0
    have hl := length_sortDesc
      ((((dedupFirst (bm25_candidates bm25_scores candidate_k ++ vec_top)).filter
        (fun j => decide (0 ≤ j) && decide (j < (rows.length : ℤ)))).map
        (fun j => rows.getD j.toNat ⟨"", "", "", ""⟩)).map
        (fun c => (c, reranker query c.text)))
    rw [h0] at hl
    simp only [List.length_nil] at hl
    have hmap0 := List.eq_nil_of_length_eq_zero hl.symm
    rw [List.map_eq_nil_iff] at hmap0
    exact hcne hmap0
  constructor
  · rcases List.exists_cons_of_ne_nil hrne with ⟨q, qs, hq⟩
    rw [hq]
    exact dedupTakeAux_ne_nil _ _ _ _
  · have hb := dedupTakeAux_length top_k 0 []
      (sortDesc ((((dedupFirst (bm25_candidates bm25_scores candidate_k ++ vec_top)).filter
        (fun j => decide (0 ≤ j) && decide (j < (rows.length : ℤ)))).map
        (fun j => rows.getD j.toNat ⟨"", "", "", ""⟩)).map
        (fun c => (c, reranker query c.text))))
    simpa using hb

/-- Witness for the amended C7 at a one-row corpus. -/
theorem search_nonempty_bounded_witness :
    search [⟨"T1", "s", "c1", "t1"⟩] 1 6 (fun _ _ => 0) [0] [] "q" ≠ [] ∧
    (search [⟨"T1", "s", "c1", "t1"⟩] 1 6 (fun _ _ => 0) [0] [] "q").length ≤ max 6 1 :=
  search_nonempty_bounded [⟨"T1", "s", "c1", "t1"⟩] 1 6 (fun _ _ => 0) [0] [] "q"
    (by decide) rfl (by decide) (by decide)

/-! ### Composer theorems -/

theorem run_missing_data_eq (m : String) (ev : List Evidence) (st mt : ℚ) (tn : ℕ) :
    (run_qtguard_with_retrieval m ev st mt tn).1.audit_view.missing_data =
      find_missing_inputs m := by
  by_cases hw : (is_evidence_weak ev st mt).1 = true
  all_goals
    simp only [run_qtguard_with_retrieval, hw, if_true, if_false, Bool.false_eq_true,
      Bool.not_eq_true]
  all_goals
    rw [build_safe_output]
    by_cases hm : (find_missing_inputs m).isEmpty
    · rw [if_pos hm]
      rw [List.isEmpty_iff] at hm
      exact hm.symm
    · rw [if_neg hm]
      rfl

/-- Claim C2 counterexample: on the mini-chart `"QTc: unknown"` with
strong evidence, the composed `audit_view.missing_data` is exactly the
baseline guardrail result `["Potassium (K)", "Magnesium (Mg)"]` — `QTc`
is not in it even though the text marks QTc as an explicit placeholder
and the leading deferral action sentence names QTc; the claimed union
would contain QTc. -/
theorem missing_data_union_cex :
    (run_qtguard_with_retrieval ("QTc: unknown") [⟨"Guide", "S1", "c1", "chunk", 10⟩]
        0 (mkRat 1 5) 5).1.audit_view.missing_data = ["Potassium (K)", "Magnesium (Mg)"] ∧
    ¬ ("QTc" ∈ (run_qtguard_with_retrieval ("QTc: unknown") [⟨"Guide", "S1", "c1", "chunk", 10⟩]
        0 (mkRat 1 5) 5).1.audit_view.missing_data) ∧
    (is_evidence_weak [⟨"Guide", "S1", "c1", "chunk", 10⟩] 0 (mkRat 1 5)).1 = false ∧
    (run_qtguard_with_retrieval ("QTc: unknown") [⟨"Guide", "S1", "c1", "chunk", 10⟩]
        0 (mkRat 1 5) 5).1.action_plan.head? =
      some (deferralActionItem ["QTc", "Potassium (K)", "Magnesium (Mg)", "Medication list"]) := by
  refine ⟨by decide, by decide, by decide, by decide⟩

/-- Claim C2 (amended): after every compose call,
`audit_view.missing_data` equals exactly the field set the baseline
guardrail check found missing; explicit placeholder tokens and fields
named in a deferral sentence are not added to it. -/
theorem missing_data_eq_baseline (m : String) (ev : List Evidence) (st mt : ℚ) (tn : ℕ) :
    (run_qtguard_with_retrieval m ev st mt tn).1.audit_view.missing_data =
      find_missing_inputs m :=
  run_missing_data_eq m ev st mt tn

/-- Claim C3: whenever the gate classifies the evidence as strong but
some required field (QTc, K, Mg, medication list) is missing from
extraction, compose returns `effective_weak = true` and the first
action-plan item is the deferral sentence listing the missing fields. -/
theorem missing_override (m : String) (ev : List Evidence) (st mt : ℚ) (tn : ℕ)
    (hstrong : (is_evidence_weak ev st mt).1 = false)
    (hmiss : missing_inputs m ≠ []) :
    (run_qtguard_with_retrieval m ev st mt tn).2.2 = true ∧
    (run_qtguard_with_retrieval m ev st mt tn).1.action_plan.head? =
      some (deferralActionItem (missing_inputs m)) := by
  have hm : (missing_inputs m).isEmpty = false := by
    cases hmm : missing_inputs m with
    | nil => exact absurd hmm hmiss
    | cons a as => rfl
  constructor
  · simp only [run_qtguard_with_retrieval, build_evidence_guided_plan, hstrong, hm,
      Bool.false_or, Bool.not_false]
  · simp only [run_qtguard_with_retrieval, build_evidence_guided_plan, hstrong, hm,
      Bool.false_eq_true, if_false, Bool.not_false, if_true, List.cons_append,
      List.nil_append, List.head?_cons]

/-- Witness for C3 at the spec scenario: a mini-chart containing only a
medication list, with strong evidence. -/
theorem missing_override_witness :
    (run_qtguard_with_retrieval ("Meds: ondansetron only")
        [⟨"Guide", "S1", "c1", "chunk", 10⟩] 0 (mkRat 1 5) 5).2.2 = true ∧
    (run_qtguard_with_retrieval ("Meds: ondansetron only")
        [⟨"Guide", "S1", "c1", "chunk", 10⟩] 0 (mkRat 1 5) 5).1.action_plan.head? =
      some (deferralActionItem (missing_inputs ("Meds: ondansetron only"))) :=
  missing_override ("Meds: ondansetron only") [⟨"Guide", "S1", "c1", "chunk", 10⟩]
    0 (mkRat 1 5) 5 (by decide) (by decide)

/-- Claim C4 counterexample: gate strong, required fields missing
(`K=2.9` has no QTc, no Mg, no meds), yet `risk_summary` is the risk
narrative built from the flag that was found — it names none of the
missing fields, contradicting "deferral language driven by the
missing-field set". -/
theorem risk_narrative_cex :
    (is_evidence_weak [⟨"Guide", "S1", "c1", "chunk", 10⟩] 0 (mkRat 1 5)).1 = false ∧
    missing_inputs ("K=2.9") ≠ [] ∧
    (run_qtguard_with_retrieval ("K=2.9") [⟨"Guide", "S1", "c1", "chunk", 10⟩]
        0 (mkRat 1 5) 5).1.risk_summary =
      "Higher QT/TdP risk signals present: K=2.9 (low)." ∧
    containsSub ("qtc".data)
      (lowerStr (run_qtguard_with_retrieval ("K=2.9") [⟨"Guide", "S1", "c1", "chunk", 10⟩]
        0 (mkRat 1 5) 5).1.risk_summary.data) = false ∧
    containsSub ("magnesium".data)
      (lowerStr (run_qtguard_with_retrieval ("K=2.9") [⟨"Guide", "S1", "c1", "chunk", 10⟩]
        0 (mkRat 1 5) 5).1.risk_summary.data) = false ∧
    containsSub ("medication".data)
      (lowerStr (run_qtguard_with_retrieval ("K=2.9") [⟨"Guide", "S1", "c1", "chunk", 10⟩]
        0 (mkRat 1 5) 5).1.risk_summary.data) = false := by
  refine ⟨by decide, by decide, by decide, by decide, by decide, by decide⟩

/-- Claim C4 (amended): when the gate is strong but required fields are
missing, `risk_summary` is the fixed text naming the needed inputs only
when no risk flags were extracted; when flags exist it is the flag
narrative, and the missing-field deferral is carried by the first
action-plan item instead. -/
theorem risk_summary_on_missing (m : String) (ev : List Evidence) (st mt : ℚ) (tn : ℕ)
    (hstrong : (is_evidence_weak ev st mt).1 = false)
    (hmiss : missing_inputs m ≠ []) :
    (risk_flags m = [] →
      (run_qtguard_with_retrieval m ev st mt tn).1.risk_summary = couldNotDeriveText) ∧
    (risk_flags m ≠ [] →
      (run_qtguard_with_retrieval m ev st mt tn).1.risk_summary =
        "Higher QT/TdP risk signals present: " ++
          String.intercalate ("; ") (risk_flags m) ++ ".") ∧
    (run_qtguard_with_retrieval m ev st mt tn).1.action_plan.head? =
      some (deferralActionItem (missing_inputs m)) := by
  have hm : (missing_inputs m).isEmpty = false := by
    cases hmm : missing_inputs m with
    | nil => exact absurd hmm hmiss
    | cons a as => rfl
  refine ⟨?_, ?_, (missing_override m ev st mt tn hstrong hmiss).2⟩
  · intro hf
    have hfe : (risk_flags m).isEmpty = true := by rw [hf]; rfl
    simp only [run_qtguard_with_retrieval, build_evidence_guided_plan, hstrong, hfe,
      Bool.false_eq_true, if_false, Bool.not_true, if_true]
  · intro hf
    have hfe : (risk_flags m).isEmpty = false := by
      cases hff : risk_flags m with
      | nil => exact absurd hff hf
      | cons a as => rfl
    simp only [run_qtguard_with_retrieval, build_evidence_guided_plan, hstrong, hfe,
      Bool.false_eq_true, if_false, Bool.not_false, if_true]

/-- Witness for the amended C4: on `"K=2.9"` with strong evidence the
risk summary is the flag narrative. -/
theorem risk_summary_on_missing_witness :
    (run_qtguard_with_retrieval ("K=2.9") [⟨"Guide", "S1", "c1", "chunk", 10⟩]
        0 (mkRat 1 5) 5).1.risk_summary =
      "Higher QT/TdP risk signals present: " ++
        String.intercalate ("; ") (risk_flags ("K=2.9")) ++ "." :=
  (risk_summary_on_missing ("K=2.9") [⟨"Guide", "S1", "c1", "chunk", 10⟩]
    0 (mkRat 1 5) 5 (by decide) (by decide)).2.1 (by decide)

/-- Claim C9: when the gate says weak, compose keeps the baseline
guardrail output's `patient_counseling` and `missing_data` unchanged,
replaces `risk_summary` with the fixed low-confidence text, and the
action plan is exactly the two fixed deferral actions followed by all
baseline action items in their original order. -/
theorem weak_branch_frame (m : String) (ev : List Evidence) (st mt : ℚ) (tn : ℕ)
    (hweak : (is_evidence_weak ev st mt).1 = true) :
    (run_qtguard_with_retrieval m ev st mt tn).1.risk_summary = lowConfidenceText ∧
    (run_qtguard_with_retrieval m ev st mt tn).1.patient_counseling =
      (build_safe_output m).patient_counseling ∧
    (run_qtguard_with_retrieval m ev st mt tn).1.action_plan =
      weakDeferralAction1 :: weakDeferralAction2 :: (build_safe_output m).action_plan ∧
    (run_qtguard_with_retrieval m ev st mt tn).1.audit_view.missing_data =
      (build_safe_output m).audit_view.missing_data := by
  refine ⟨?_, ?_, ?_, ?_⟩ <;>
    simp only [run_qtguard_with_retrieval, hweak, if_true]

/-- Witness for C9: empty evidence is weak for any thresholds. -/
theorem weak_branch_frame_witness :
    (run_qtguard_with_retrieval ("QTc=560") [] 0 (mkRat 1 5) 5).1.patient_counseling =
      (build_safe_output ("QTc=560")).patient_counseling ∧
    (run_qtguard_with_retrieval ("QTc=560") [] 0 (mkRat 1 5) 5).1.action_plan =
      weakDeferralAction1 :: weakDeferralAction2 ::
        (build_safe_output ("QTc=560")).action_plan :=
  ⟨(weak_branch_frame ("QTc=560") [] 0 (mkRat 1 5) 5 (by decide)).2.1,
   (weak_branch_frame ("QTc=560") [] 0 (mkRat 1 5) 5 (by decide)).2.2.1⟩

/-- Claim C10: in every compose output, `missing_data` only ever holds
the three guardrail labels; the label `"Medication list"` never appears
in it, even when an absent medication list forces the deferral. -/
theorem missing_data_labels (m : String) (ev : List Evidence) (st mt : ℚ) (tn : ℕ) :
    (∀ x ∈ (run_qtguard_with_retrieval m ev st mt tn).1.audit_view.missing_data,
      x = "QTc" ∨ x = "Potassium (K)" ∨ x = "Magnesium (Mg)") ∧
    "Medication list" ∉
      (run_qtguard_with_retrieval m ev st mt tn).1.audit_view.missing_data := by
  rw [run_missing_data_eq]
  constructor
  · intro x hx
    simp only [find_missing_inputs, List.mem_append] at hx
    rcases hx with (hx | hx) | hx <;> split_ifs at hx <;> simp_all
  · intro hx
    simp only [find_missing_inputs, List.mem_append] at hx
    rcases hx with (hx | hx) | hx <;> split_ifs at hx <;> simp_all

/-- Witness for C10 at a mini-chart whose medication list is the missing
field forcing deferral. -/
theorem missing_data_labels_witness :
    "Medication list" ∉
      (run_qtguard_with_retrieval ("Meds: ondansetron only") [] 0 (mkRat 1 5)
        5).1.audit_view.missing_data :=
  (missing_data_labels ("Meds: ondansetron only") [] 0 (mkRat 1 5) 5).2

/-- Claim C8: when the corpus input yields no usable chunk record (the
record list is empty, or no record carries a `text` field), the
constructor fails with the `RuntimeError`; and whenever construction
succeeds, the row list `search` runs over is non-empty, so `search`
can never run over an empty corpus. -/
theorem init_fails_on_empty_corpus (chunks_path : String) (records : List RawRecord)
    (h : ∀ r ∈ records, r.text = none) :
    initRetriever chunks_path records =
      Except.error ("No chunks loaded from " ++ chunks_path ++ ". Is the file empty?") ∧
    ∀ (recs : List RawRecord) (rows : List Row),
      initRetriever chunks_path recs = Except.ok rows → rows ≠ [] := by
  constructor
  · have hrows : loadRows records = [] := by
      rw [loadRows, List.filterMap_eq_nil_iff]
      intro r hr
      rw [h r hr]
      rfl
    rw [initRetriever, hrows]
    rfl
  · intro recs rows hok
    rw [initRetriever] at hok
    by_cases he : (loadRows recs).isEmpty
    · rw [if_pos he] at hok
      exact absurd hok (by simp)
    · rw [if_neg he] at hok
      have : loadRows recs = rows := by
        injection hok
      rw [← this]
      intro h0
      rw [h0] at he
      exact he rfl

/-- Witness for C8: the empty record list (an empty `chunks.jsonl`). -/
theorem init_fails_on_empty_corpus_witness :
    initRetriever ("assets/knowledge/chunks.jsonl") [] =
      Except.error ("No chunks loaded from " ++ "assets/knowledge/chunks.jsonl" ++
        ". Is the file empty?") :=
  (init_fails_on_empty_corpus ("assets/knowledge/chunks.jsonl") []
    (fun r hr => absurd hr (List.not_mem_nil r))).1

end QTGuard
